import Mathlib

/-!
Verification development for the french-company-search extension's
representative-resolution and template-rendering engine
(`src/lib/link-builder.ts` / `markdown-builder.ts`).

The TypeScript data model is embedded shallowly: JSON-ish optional fields
become `Option`, JavaScript string truthiness (`""` and `undefined` are
falsy) is made explicit through `strVal` / `strOr` / `jsOr`, and the
in-place `Array.prototype.sort` inside `extractRepresentativeInfo` is
modelled by returning the post-call state of the `pouvoirs` array next to
the result.  External collaborators (the formatting and lookup helpers in
`utils.ts`, `formatting.ts`, `greffe-lookup.ts`, which are consumed but
not part of the resolution core) are abstracted as an environment `Env`
of total functions; theorems quantify over every environment.
-/

/-- Output language selector (`OutputLanguage = "fr" | "en"`). -/
inductive Lang where
  | fr
  | en
deriving DecidableEq, Repr

/-- `descriptionPersonne`: a natural-person descriptor. -/
structure PersonDescription where
  nom : Option String := none
  prenoms : Option (List String) := none
  genre : Option String := none
  dateDeNaissance : Option String := none
  lieuDeNaissance : Option String := none
  nationalite : Option String := none
deriving DecidableEq, Repr

/-- The `entreprise` object embedded in a pouvoir (corporate descriptor).
`sirenField` stands for the identifier material that
`extractSirenFromEnterprise` reads from the object. -/
structure EntrepriseRef where
  denomination : Option String := none
  sirenField : Option String := none
deriving DecidableEq, Repr

/-- One entry of `composition.pouvoirs`.  The optional chains
`individu?.descriptionPersonne` and
`personnePhysique?.identite?.descriptionPersonne` are collapsed into a
single `Option PersonDescription` (present exactly when the whole chain
is present), which is all `extractRepresentativeInfo` inspects. -/
structure Pouvoir where
  roleEntreprise : Option String := none
  individu : Option PersonDescription := none
  personnePhysique : Option PersonDescription := none
  entreprise : Option EntrepriseRef := none
deriving DecidableEq, Repr

/-- The runtime value found at `composition.pouvoirs`: an array, or some
non-array value (the code guards with `Array.isArray`). -/
inductive PouvoirsVal where
  | arr : List Pouvoir → PouvoirsVal
  | other
deriving DecidableEq, Repr

/-- A composition object (`Record<string, unknown>` in the source; only
the `pouvoirs` member is read). -/
structure CompositionData where
  pouvoirs : Option PouvoirsVal := none
deriving DecidableEq, Repr

/-- The nested representative attached to a holding
(`holdingRepresentative` on `RepresentativeInfo`). -/
structure PhysicalRep where
  name : String
  role : String
  roleCode : Option String := none
  roleEnglish : Option String := none
  gender : Option String := none
deriving DecidableEq, Repr

/-- `RepresentativeInfo` as produced by `extractRepresentativeInfo` and
consumed by the template-variable builder. -/
structure RepresentativeInfo where
  name : String
  role : String
  roleCode : Option String := none
  roleEnglish : Option String := none
  gender : Option String := none
  isHolding : Bool := false
  corporateSiren : Option String := none
  holdingRepresentative : Option PhysicalRep := none
deriving DecidableEq, Repr

/-- Postal-address leaf (`adresse` object); only `codePostal` is read by
the core, the rest is summarised as an uninterpreted `libelle`. -/
structure AdresseDetail where
  codePostal : Option String := none
  libelle : Option String := none
deriving DecidableEq, Repr

/-- `adresseEntreprise` / `adressePersonne` wrapper object. -/
structure AdresseE where
  adresse : Option AdresseDetail := none
deriving DecidableEq, Repr

/-- `personneMorale.identite.entreprise`. -/
structure EntrepriseIdentite where
  denomination : Option String := none
deriving DecidableEq, Repr

/-- `personneMorale.identite.description`. -/
structure DescriptionIdentite where
  montantCapital : Option Nat := none
deriving DecidableEq, Repr

/-- `personneMorale.identite`. -/
structure IdentiteMorale where
  entreprise : Option EntrepriseIdentite := none
  description : Option DescriptionIdentite := none
deriving DecidableEq, Repr

/-- `personneMorale.capital`. -/
structure CapitalInfo where
  montant : Option Nat := none
deriving DecidableEq, Repr

/-- `personneMorale.immatriculationRcs`. -/
structure ImmatriculationRcs where
  villeImmatriculation : Option String := none
deriving DecidableEq, Repr

/-- Corporate payload of a company record. -/
structure PersonneMorale where
  denomination : Option String := none
  identite : Option IdentiteMorale := none
  adresseEntreprise : Option AdresseE := none
  immatriculationRcs : Option ImmatriculationRcs := none
  capital : Option CapitalInfo := none
  composition : Option CompositionData := none
deriving DecidableEq, Repr

/-- `personnePhysique.identite.entrepreneur`. -/
structure Entrepreneur where
  descriptionPersonne : Option PersonDescription := none
deriving DecidableEq, Repr

/-- `personnePhysique.identite`. -/
structure IdentitePhysique where
  entrepreneur : Option Entrepreneur := none
deriving DecidableEq, Repr

/-- Individual-entrepreneur payload of a company record. -/
structure PersonnePhysique where
  identite : Option IdentitePhysique := none
  adressePersonne : Option AdresseE := none
  adresseEntreprise : Option AdresseE := none
deriving DecidableEq, Repr

/-- `content.natureCreation` (only `formeJuridique` is read). -/
structure NatureCreation where
  formeJuridique : Option String := none
deriving DecidableEq, Repr

/-- `formality.content`. -/
structure Content where
  personnePhysique : Option PersonnePhysique := none
  personneMorale : Option PersonneMorale := none
  natureCreation : Option NatureCreation := none
deriving DecidableEq, Repr

/-- `data.formality`. -/
structure Formality where
  siren : String := ""
  content : Content := {}
deriving DecidableEq, Repr

/-- A company record as consumed by the markdown builders. -/
structure CompanyData where
  formality : Formality := {}
deriving DecidableEq, Repr

/-- Environment of external collaborators: the formatting and lookup
helpers imported from `utils.ts`, `formatting.ts`, `greffe-lookup.ts`
and `recursive-representative-search.ts` (`extractSirenFromEnterprise`),
plus the `FALLBACK_VALUES` constants.  All are total functions of their
inputs; theorems hold for every environment. -/
structure Env where
  formatRepresentativeName : List String → String → String
  getRoleName : String → String
  getRoleNameEnglish : String → String
  getRoleNameEnglishByCode : String → String
  getLegalFormLabel : String → String
  getLegalFormLabelEnglish : String → String
  formatSiren : String → String
  formatSirenEnglish : String → String
  formatFrenchNumber : String → String
  formatEnglishNumber : String → String
  formatFieldStr : Option String → String → String
  formatFieldNat : Option Nat → String → String
  formatAddress : Option AdresseE → String
  formatCityName : String → String
  findGreffeByCodePostal : String → Option String
  getGenderAgreement : Option String → Lang → String
  getRepresentativePronoun : Option String → String
  getEnglishAuthorizationPhrase : Option String → String × String
  corporateAuthorizationPhrase : String × String
  extractSirenFromEnterprise : EntrepriseRef → Option String
  fallbackName : String
  fallbackRole : String
  missingData : String
  fallbackBirthDate : String
  fallbackBirthPlace : String
  fallbackNationality : String
  fallbackAddress : String
  fallbackRcsCity : String

/-- JavaScript string truthiness: `""`, `null` and `undefined` are falsy.
`strVal a` is `some s` exactly when `a` holds a non-empty string. -/
def strVal (a : Option String) : Option String :=
  match a with
  | some "" => none
  | some s => some s
  | none => none

/-- JavaScript `a || b` on two strings. -/
def strOr (a b : String) : String :=
  if a = "" then b else a

/-- JavaScript `a || b` where `a` is an optional string and `b` an
optional string returned as-is when `a` is falsy. -/
def jsOr (a b : Option String) : Option String :=
  match strVal a with
  | some s => some s
  | none => b

/-- The fallback `RepresentativeInfo` defined at the top of
`extractRepresentativeInfo`. -/
def fallbackRep (env : Env) : RepresentativeInfo :=
  { name := env.fallbackName
    role := env.fallbackRole
    roleCode := none
    roleEnglish := some env.fallbackRole
    gender := none
    isHolding := false }

/-- `p.roleEntreprise === "5132" || p.roleEntreprise === "73"`: the
president fast-path test. -/
def isPresident (p : Pouvoir) : Bool :=
  p.roleEntreprise == some "5132" || p.roleEntreprise == some "73"

/-- `rolePriority.indexOf(roleEntreprise)` mapped to a sort rank: codes
in `["5132","73","51","30","53"]` get their index, anything else
(including a missing role) gets rank 5, i.e. sorts after every known
code — this is exactly the order induced by the source's comparator
(`-1` indexes are sent after all others, otherwise `priorityA -
priorityB`). -/
def rankOf (p : Pouvoir) : Nat :=
  match p.roleEntreprise with
  | some s =>
    if s = "5132" then 0
    else if s = "73" then 1
    else if s = "51" then 2
    else if s = "30" then 3
    else if s = "53" then 4
    else 5
  | none => 5

/-- The total preorder induced by the source's comparator. -/
def rLe (a b : Pouvoir) : Prop := rankOf a ≤ rankOf b

instance : DecidableRel rLe := fun a b => Nat.decLe (rankOf a) (rankOf b)

instance : IsTotal Pouvoir rLe := ⟨fun a b => Nat.le_total (rankOf a) (rankOf b)⟩

instance : IsTrans Pouvoir rLe := ⟨fun _ _ _ hab hbc => Nat.le_trans hab hbc⟩

/-- `pouvoirs.find(isPresident)`: the first president-coded entry. -/
def findPresident (l : List Pouvoir) : Option Pouvoir :=
  l.find? isPresident

/-- The pouvoir the source selects: the first president if any, else the
head of the comparator-sorted array.  ECMAScript `Array.prototype.sort`
is stable and, for a consistent comparator, produces the (unique) stable
sorted permutation, which insertion sort also produces. -/
def selectedPouvoir (l : List Pouvoir) : Option Pouvoir :=
  match findPresident l with
  | some p => some p
  | none => (List.insertionSort rLe l).head?

/-- The contents of the `pouvoirs` array after the call: `Array.sort`
mutates in place, and only runs in the no-president branch. -/
def sortedState (l : List Pouvoir) : List Pouvoir :=
  match findPresident l with
  | some _ => l
  | none => List.insertionSort rLe l

/-- Classification of the selected pouvoir: the three descriptor
branches (new-format `individu`, old-format `personnePhysique`,
corporate `entreprise`) followed by the final fallback, transcribed from
`extractRepresentativeInfo`. -/
def classifyPouvoir (env : Env) (pouvoir : Pouvoir) : RepresentativeInfo :=
  match pouvoir.individu with
  | some desc =>
    { name := env.formatRepresentativeName (desc.prenoms.getD []) (desc.nom.getD "")
      role := env.getRoleName (pouvoir.roleEntreprise.getD "")
      roleCode := pouvoir.roleEntreprise
      roleEnglish := some (env.getRoleNameEnglishByCode (pouvoir.roleEntreprise.getD ""))
      gender :=
        if desc.genre = some "2" then some "F"
        else if desc.genre = some "1" then some "M"
        else none
      isHolding := false }
  | none =>
    match pouvoir.personnePhysique with
    | some desc =>
      { name := env.formatRepresentativeName (desc.prenoms.getD []) (desc.nom.getD "")
        role := env.getRoleName (pouvoir.roleEntreprise.getD "")
        roleCode := pouvoir.roleEntreprise
        roleEnglish := some (env.getRoleNameEnglishByCode (pouvoir.roleEntreprise.getD ""))
        gender := if desc.genre = some "2" then some "F" else some "M"
        isHolding := false }
    | none =>
      match pouvoir.entreprise with
      | some ent =>
        match strVal ent.denomination with
        | some dn =>
          { name := dn
            role := env.getRoleName (pouvoir.roleEntreprise.getD "")
            roleCode := pouvoir.roleEntreprise
            roleEnglish := some (env.getRoleNameEnglishByCode (pouvoir.roleEntreprise.getD ""))
            gender := none
            isHolding := true
            corporateSiren := env.extractSirenFromEnterprise ent }
        | none => fallbackRep env
      | none => fallbackRep env

/-- `extractRepresentativeInfo`, including the post-call state of the
`pouvoirs` array (second component): the source sorts the array in place
in the no-president branch. -/
def extractRepresentativeInfoFull (env : Env) (composition : CompositionData) :
    RepresentativeInfo × CompositionData :=
  match composition.pouvoirs with
  | some (PouvoirsVal.arr (p :: ps)) =>
    (match selectedPouvoir (p :: ps) with
     | some q => classifyPouvoir env q
     | none => fallbackRep env,
     ⟨some (PouvoirsVal.arr (sortedState (p :: ps)))⟩)
  | _ => (fallbackRep env, composition)

/-- The value `extractRepresentativeInfo` returns. -/
def extractRepresentativeInfo (env : Env) (composition : CompositionData) :
    RepresentativeInfo :=
  (extractRepresentativeInfoFull env composition).1

/-- Character class `\s` of the placeholder regex (whitespace). -/
def isWsChar (c : Char) : Bool := c.isWhitespace

/-- Character class `[a-zA-Z0-9_]` of the placeholder regex. -/
def isNameChar (c : Char) : Bool := c.isAlphanum || c == '_'

/-- Attempt to match the regex `{{\s*([a-zA-Z0-9_]+)\s*}}` at the head
of `l`.  Returns the captured name and the total number of characters
consumed.  All three character classes involved (`{`/`}`, whitespace,
name characters) are pairwise disjoint, so the backtracking regex is
equivalent to this maximal-munch scan. -/
def phAt (l : List Char) : Option (String × Nat) :=
  if l.take 2 = ['{', '{'] then
    let rest := l.drop 2
    let ws1 := rest.takeWhile isWsChar
    let r1 := rest.drop ws1.length
    let nm := r1.takeWhile isNameChar
    if nm = [] then none
    else
      let r2 := r1.drop nm.length
      let ws2 := r2.takeWhile isWsChar
      let r3 := r2.drop ws2.length
      if r3.take 2 = ['}', '}'] then
        some (⟨nm⟩, 2 + ws1.length + nm.length + ws2.length + 2)
      else none
  else none

/-- `variables[key]` on the flat `TemplateVariables` record (modelled as
an association list with the source's literal key order). -/
def lookupVar (vars : List (String × String)) (key : String) : Option String :=
  (vars.find? (fun kv => kv.1 == key)).map (·.2)

/-- The replacement the source substitutes for a matched placeholder:
`value !== undefined ? value : ""`. -/
def lookupValue (vars : List (String × String)) (key : String) : String :=
  (lookupVar vars key).getD ""

/-- One pass of `template.replace(/{{\s*([a-zA-Z0-9_]+)\s*}}/g, ...)`:
`String.prototype.replace` with a global regex repeatedly takes the
leftmost match and resumes scanning right after it.  The `skip` counter
carries the remaining length of a match whose head character has already
been consumed, so the recursion is structural on the character list. -/
def renderAux (vars : List (String × String)) : Nat → List Char → List Char
  | _, [] => []
  | Nat.succ k, _ :: cs => renderAux vars k cs
  | 0, c :: cs =>
    match phAt (c :: cs) with
    | some (nm, n) => (lookupValue vars nm).data ++ renderAux vars (n - 1) cs
    | none => c :: renderAux vars 0 cs

/-- `renderTemplate(template, variables)`. -/
def renderTemplate (template : String) (vars : List (String × String)) : String :=
  ⟨renderAux vars 0 template.data⟩

/-- `PERSONNE_PHYSIQUE_TEMPLATES` (default templates per language). -/
def personnePhysiqueTemplate : Lang → String
  | Lang.fr =>
    String.intercalate "\n"
      ["{{civility}} {{full_name}}", "{{birth_statement}}", "{{nationality_line}}",
       "{{personal_address_line}}", "N° : {{siren_formatted}}"]
  | Lang.en =>
    String.intercalate "\n"
      ["{{civility}} {{full_name}}", "{{birth_statement}}", "{{nationality_line}}",
       "{{personal_address_line}}", "No.: {{siren_formatted}}"]

/-- `PERSONNE_MORALE_TEMPLATES` (default templates per language). -/
def personneMoraleTemplate : Lang → String
  | Lang.fr =>
    String.intercalate "\n"
      ["**La société {{company_name}}**", "", "{{share_capital_line}}",
       "{{registration_line}}", "{{head_office_line}}", "", "{{representative_line}}"]
  | Lang.en =>
    String.intercalate "\n"
      ["{{company_header}}", "{{share_capital_line}}", "{{head_office_line}}",
       "{{registration_line}}", "{{representative_line}}"]

/-- `AVAILABLE_TEMPLATE_VARIABLES.common`. -/
def availableCommonVariables : List String :=
  ["company_type", "siren", "siren_formatted", "company_name", "legal_form",
   "company_header", "company_details"]

/-- `AVAILABLE_TEMPLATE_VARIABLES.personneMorale`. -/
def availablePersonneMoraleVariables : List String :=
  ["legal_form", "legal_form_english", "share_capital", "share_capital_raw",
   "share_capital_with_currency", "share_capital_line", "share_capital_currency",
   "company_header", "company_details", "rcs_city", "registration_line",
   "head_office_address", "head_office_line", "representative_name",
   "representative_role", "representative_role_english", "representative_gender",
   "representative_is_holding", "representative_line", "representative_pronoun",
   "representative_verb", "holding_representative_name", "holding_representative_role",
   "holding_representative_gender", "holding_representative_pronoun",
   "holding_representative_verb", "holding_representative_role_english"]

/-- `AVAILABLE_TEMPLATE_VARIABLES.personnePhysique`. -/
def availablePersonnePhysiqueVariables : List String :=
  ["civility", "first_name", "last_name", "full_name", "birth_date", "birth_place",
   "birth_statement", "ne_word", "nationality", "nationality_line", "personal_address",
   "personal_address_line", "representative_pronoun", "representative_verb"]

/-- Every variable name advertised by `AVAILABLE_TEMPLATE_VARIABLES`
(the three groups together). -/
def allAdvertisedVariables : List String :=
  availableCommonVariables ++ availablePersonneMoraleVariables ++
    availablePersonnePhysiqueVariables

/-- Tail steps of `resolveEnglishRole`: resolve by free-text role name
(`if (roleValue) return getRoleNameEnglish(roleValue)`), else the fixed
fallback label. -/
def resolveEnglishRoleFromName (env : Env) (roleValue : Option String) : String :=
  match strVal roleValue with
  | some r => env.getRoleNameEnglish r
  | none => env.fallbackRole

/-- Middle step of `resolveEnglishRole`: resolve by role code.  In the
source, `if (mapped && !...) return mapped; if (mapped) return mapped;`
collapses to returning `mapped` whenever it is truthy. -/
def resolveEnglishRoleFromCode (env : Env) (roleValue roleCodeValue : Option String) :
    String :=
  match strVal roleCodeValue with
  | some code =>
    let mapped := env.getRoleNameEnglishByCode code
    if mapped = "" then resolveEnglishRoleFromName env roleValue else mapped
  | none => resolveEnglishRoleFromName env roleValue

/-- The `resolveEnglishRole` closure of
`createPersonneMoraleTemplateVariables`: explicit already-localized
label first (when truthy and not the fallback), then by code, then by
free-text name, then the fallback label. -/
def resolveEnglishRole (env : Env) (roleValue roleCodeValue explicitEnglish : Option String) :
    String :=
  match strVal explicitEnglish with
  | some e =>
    if e = env.fallbackRole then resolveEnglishRoleFromCode env roleValue roleCodeValue
    else e
  | none => resolveEnglishRoleFromCode env roleValue roleCodeValue

/-- The nine strings assembled in the language-dependent section of
`createPersonneMoraleTemplateVariables` (the `let`-declared locals
`shareCapitalLine` … `holdingVerb`). -/
structure MoraleLines where
  shareCapitalLine : String
  headOfficeLine : String
  registrationLine : String
  representativeLine : String
  companyHeader : String
  representativePronoun : String
  representativeVerb : String
  holdingPronoun : String
  holdingVerb : String

/-- `createPersonneMoraleTemplateVariables(data, representative,
language)`.  The `personneMorale` payload is passed explicitly (the
source reads it through a caller-guaranteed non-null assertion). -/
def createPersonneMoraleTemplateVariables (env : Env) (data : CompanyData)
    (pm : PersonneMorale) (representative : RepresentativeInfo) (language : Lang) :
    List (String × String) :=
  let natureCreation := data.formality.content.natureCreation
  let siren := data.formality.siren
  let sirenFormattedFrench := env.formatSiren siren
  let sirenFormattedEnglish := env.formatSirenEnglish siren
  let sirenFormatted := if language = Lang.en then sirenFormattedEnglish else sirenFormattedFrench
  let legalFormCode := natureCreation.bind (·.formeJuridique)
  let legalForm :=
    match strVal legalFormCode with
    | some c => env.getLegalFormLabel c
    | none => ""
  let identite := pm.identite
  let denominationValue := jsOr ((identite.bind (·.entreprise)).bind (·.denomination)) pm.denomination
  let denomination := env.formatFieldStr denominationValue env.missingData
  let shareCapitalValue :=
    ((identite.bind (·.description)).bind (·.montantCapital)) <|> (pm.capital.bind (·.montant))
  let shareCapitalRaw := env.formatFieldNat shareCapitalValue env.missingData
  let shareCapitalFrench :=
    if shareCapitalRaw ≠ env.missingData then env.formatFrenchNumber shareCapitalRaw
    else shareCapitalRaw
  let shareCapitalEnglish :=
    if shareCapitalRaw ≠ env.missingData then env.formatEnglishNumber shareCapitalRaw
    else shareCapitalRaw
  let shareCapitalWithCurrencyFrench :=
    if shareCapitalFrench ≠ env.missingData then shareCapitalFrench ++ " €"
    else shareCapitalFrench
  let shareCapitalWithCurrencyEnglish :=
    if shareCapitalEnglish ≠ env.missingData then "€" ++ shareCapitalEnglish
    else shareCapitalEnglish
  let legalFormEnglish := env.getLegalFormLabelEnglish legalForm
  let address := env.formatAddress pm.adresseEntreprise
  let codePostal := (pm.adresseEntreprise.bind (·.adresse)).bind (·.codePostal)
  let greffeFromData :=
    match strVal codePostal with
    | some cp => env.findGreffeByCodePostal cp
    | none => none
  let rawRcsCity := jsOr greffeFromData (pm.immatriculationRcs.bind (·.villeImmatriculation))
  let rcsCity :=
    match strVal rawRcsCity with
    | some c => env.formatCityName c
    | none => env.fallbackRcsCity
  let isEnglish := language = Lang.en
  let representativeRoleEnglishResolved :=
    resolveEnglishRole env (some representative.role) representative.roleCode
      representative.roleEnglish
  let holdingRepresentativeRoleEnglishResolved :=
    resolveEnglishRole env (representative.holdingRepresentative.map (·.role))
      (representative.holdingRepresentative.bind (·.roleCode))
      (representative.holdingRepresentative.bind (·.roleEnglish))
  let lines : MoraleLines :=
    if isEnglish then
      let frenchLegalForm := strOr legalForm env.missingData
      let shareCapitalLine :=
        "A " ++ legalFormEnglish ++ " (*" ++ frenchLegalForm ++
          "*) company, with a share capital of " ++ shareCapitalWithCurrencyEnglish ++ ","
      let headOfficeLine := "Having its head office located at " ++ address ++ ","
      let registrationLine :=
        "Registered under number " ++ sirenFormattedEnglish ++ " with the " ++ rcsCity ++
          " Trade and Companies Register,"
      let companyHeader := "**" ++ denomination ++ "**,"
      if representative.isHolding then
        match representative.holdingRepresentative with
        | some physicalRep =>
          let physicalAuthorization := env.getEnglishAuthorizationPhrase physicalRep.gender
          let holdingPronoun := physicalAuthorization.1
          let holdingVerb := physicalAuthorization.2
          let holdingRoleEnglish := representativeRoleEnglishResolved
          let physicalRoleEnglish :=
            resolveEnglishRole env (some physicalRep.role) physicalRep.roleCode
              physicalRep.roleEnglish
          { shareCapitalLine, headOfficeLine, registrationLine, companyHeader
            representativeLine :=
              "Represented by the company " ++ representative.name ++ ", its " ++
                holdingRoleEnglish ++ ", itself represented by " ++ physicalRep.name ++
                ", " ++ physicalRoleEnglish ++ ", who warrants that " ++ holdingPronoun ++
                " " ++ holdingVerb ++ " duly authorized for the purposes herein set out,"
            representativePronoun := holdingPronoun
            representativeVerb := holdingVerb
            holdingPronoun, holdingVerb }
        | none =>
          let corporatePronoun := env.corporateAuthorizationPhrase.1
          let corporateVerb := env.corporateAuthorizationPhrase.2
          let holdingRoleEnglish := representativeRoleEnglishResolved
          { shareCapitalLine, headOfficeLine, registrationLine, companyHeader
            representativeLine :=
              "Represented by the company " ++ representative.name ++ ", its " ++
                holdingRoleEnglish ++ ", which warrants that " ++ corporatePronoun ++ " " ++
                corporateVerb ++ " duly authorized for the purposes herein set out,"
            representativePronoun := corporatePronoun
            representativeVerb := corporateVerb
            holdingPronoun := corporatePronoun
            holdingVerb := corporateVerb }
      else
        let authorization := env.getEnglishAuthorizationPhrase representative.gender
        { shareCapitalLine, headOfficeLine, registrationLine, companyHeader
          representativeLine :=
            "Represented by " ++ representative.name ++ ", its " ++
              representativeRoleEnglishResolved ++ ", who warrants that " ++
              authorization.1 ++ " " ++ authorization.2 ++
              " duly authorized for the purposes herein set out,"
          representativePronoun := authorization.1
          representativeVerb := authorization.2
          holdingPronoun := ""
          holdingVerb := "" }
    else
      let shareCapitalLine :=
        strOr legalForm env.missingData ++ " au capital de " ++ shareCapitalWithCurrencyFrench
      let headOfficeLine := "Dont le siège social est situé " ++ address
      let registrationLine :=
        "Immatriculée au RCS de " ++ rcsCity ++ " sous le n° " ++ sirenFormatted
      let companyHeader := "**La société " ++ denomination ++ "**"
      let representativeLine :=
        if representative.isHolding then
          match representative.holdingRepresentative with
          | some physicalRep =>
            "Représentée aux fins des présentes par la société " ++ representative.name ++
              " en tant que " ++ representative.role ++ ", elle-même représentée par " ++
              physicalRep.name ++ " en tant que " ++ physicalRep.role ++ ", dûment " ++
              env.getGenderAgreement physicalRep.gender language ++ "."
          | none =>
            "Représentée aux fins des présentes par " ++ representative.name ++
              " en tant que " ++ representative.role ++ "."
        else
          "Représentée aux fins des présentes par " ++ representative.name ++
            " en sa qualité de " ++ representative.role ++ ", dûment " ++
            env.getGenderAgreement representative.gender language ++ "."
      { shareCapitalLine, headOfficeLine, registrationLine, representativeLine, companyHeader
        representativePronoun := ""
        representativeVerb := ""
        holdingPronoun := ""
        holdingVerb := "" }
  let companyDetailsParts :=
    if isEnglish then [lines.shareCapitalLine, lines.headOfficeLine, lines.registrationLine]
    else [lines.shareCapitalLine, lines.registrationLine, lines.headOfficeLine]
  let companyDetails := String.intercalate "\n" companyDetailsParts
  let holdingName :=
    if representative.isHolding then (representative.holdingRepresentative.map (·.name)).getD ""
    else ""
  let holdingRole :=
    if representative.isHolding then (representative.holdingRepresentative.map (·.role)).getD ""
    else ""
  let holdingGender :=
    if representative.isHolding then
      ((representative.holdingRepresentative.bind (·.gender)).getD "")
    else ""
  let holdingPronoun := if representative.isHolding then lines.holdingPronoun else ""
  let representativeRoleEnglish := representativeRoleEnglishResolved
  let holdingRoleEnglish :=
    if representative.isHolding then
      match representative.holdingRepresentative with
      | some _ => holdingRepresentativeRoleEnglishResolved
      | none => representativeRoleEnglishResolved
    else ""
  let representativeVerbValue :=
    strOr lines.representativeVerb (if language = Lang.en then "is" else "")
  let holdingVerbValue := if representative.isHolding then lines.holdingVerb else ""
  let shareCapitalValueForLanguage := if isEnglish then shareCapitalEnglish else shareCapitalFrench
  let shareCapitalWithCurrencyForLanguage :=
    if isEnglish then shareCapitalWithCurrencyEnglish else shareCapitalWithCurrencyFrench
  [("company_type", "personne_morale"),
   ("company_name", denomination),
   ("company_header", lines.companyHeader),
   ("company_details", companyDetails),
   ("siren", siren),
   ("siren_formatted", sirenFormatted),
   ("legal_form", legalForm),
   ("legal_form_english", legalFormEnglish),
   ("share_capital", shareCapitalValueForLanguage),
   ("share_capital_raw", shareCapitalRaw),
   ("share_capital_with_currency", shareCapitalWithCurrencyForLanguage),
   ("share_capital_line", lines.shareCapitalLine),
   ("share_capital_currency", "€"),
   ("rcs_city", rcsCity),
   ("registration_line", lines.registrationLine),
   ("head_office_address", address),
   ("head_office_line", lines.headOfficeLine),
   ("representative_name", representative.name),
   ("representative_role", representative.role),
   ("representative_role_english", representativeRoleEnglish),
   ("representative_gender", representative.gender.getD ""),
   ("representative_is_holding", if representative.isHolding then "true" else "false"),
   ("representative_line", lines.representativeLine),
   ("representative_pronoun", lines.representativePronoun),
   ("representative_verb", representativeVerbValue),
   ("holding_representative_name", holdingName),
   ("holding_representative_role", holdingRole),
   ("holding_representative_gender", holdingGender),
   ("holding_representative_pronoun", holdingPronoun),
   ("holding_representative_verb", holdingVerbValue),
   ("holding_representative_role_english", holdingRoleEnglish),
   ("civility", ""),
   ("first_name", ""),
   ("last_name", ""),
   ("full_name", denomination),
   ("birth_date", ""),
   ("birth_place", ""),
   ("birth_statement", ""),
   ("ne_word", ""),
   ("nationality", ""),
   ("nationality_line", ""),
   ("personal_address", address),
   ("personal_address_line", lines.headOfficeLine)]

/-- The `variables` record assembled inside
`buildPersonnePhysiqueMarkdown` (extracted as a definition so the
populated key set can be stated; the source builds it inline). -/
def buildPersonnePhysiqueVariables (env : Env) (data : CompanyData)
    (pp : PersonnePhysique) (language : Lang) : List (String × String) :=
  let desc := (pp.identite.bind (·.entrepreneur)).bind (·.descriptionPersonne)
  let genre := desc.bind (·.genre)
  let civilite :=
    if language = Lang.en then (if genre = some "2" then "Ms." else "Mr.")
    else (if genre = some "2" then "Madame" else "Monsieur")
  let prenom := ((desc.bind (·.prenoms)).getD []).headD ""
  let nom := (desc.bind (·.nom)).getD ""
  let fullName := strOr (prenom ++ " " ++ nom).trim env.fallbackName
  let ne :=
    if language = Lang.en then "Born" else (if genre = some "2" then "Née" else "Né")
  let dateNaissance := env.formatFieldStr (desc.bind (·.dateDeNaissance)) env.fallbackBirthDate
  let lieuNaissance := env.formatFieldStr (desc.bind (·.lieuDeNaissance)) env.fallbackBirthPlace
  let nationalite := env.formatFieldStr (desc.bind (·.nationalite)) env.fallbackNationality
  let birthStatement :=
    if language = Lang.en then "Born on " ++ dateNaissance ++ " in " ++ lieuNaissance
    else ne ++ "(e) le " ++ dateNaissance ++ " à " ++ lieuNaissance
  let nationalityLine :=
    if language = Lang.en then "Of " ++ nationalite ++ " nationality"
    else "De nationalité " ++ nationalite
  let adresse :=
    match pp.adressePersonne with
    | some ap => env.formatAddress (some ap)
    | none => env.formatAddress pp.adresseEntreprise
  let demeurant := env.formatFieldStr (some adresse) env.fallbackAddress
  let personalAddressLine :=
    if language = Lang.en then "Residing at " ++ demeurant else "Demeurant " ++ demeurant
  let siren := data.formality.siren
  let sirenFormatted :=
    if language = Lang.en then env.formatSirenEnglish siren else env.formatSiren siren
  let legalFormCode := data.formality.content.natureCreation.bind (·.formeJuridique)
  let legalForm :=
    match strVal legalFormCode with
    | some c => env.getLegalFormLabel c
    | none => ""
  let legalFormEnglish := env.getLegalFormLabelEnglish legalForm
  let representativePronoun := env.getRepresentativePronoun (strVal genre)
  let representativeAuthorization := env.getEnglishAuthorizationPhrase (strVal genre)
  let representativeVerb :=
    if language = Lang.en then representativeAuthorization.2 else "est"
  let numberLabel := if language = Lang.en then "No.: " else "N° : "
  let companyDetails :=
    String.intercalate "\n"
      [birthStatement, nationalityLine, personalAddressLine, numberLabel ++ sirenFormatted]
  [("company_type", "personne_physique"),
   ("company_name", fullName),
   ("company_header", civilite ++ " " ++ fullName),
   ("company_details", companyDetails),
   ("siren", siren),
   ("siren_formatted", sirenFormatted),
   ("legal_form", legalForm),
   ("legal_form_english", legalFormEnglish),
   ("civility", civilite),
   ("first_name", prenom),
   ("last_name", nom),
   ("full_name", fullName),
   ("birth_date", dateNaissance),
   ("birth_place", lieuNaissance),
   ("birth_statement", birthStatement),
   ("ne_word", ne),
   ("nationality", nationalite),
   ("nationality_line", nationalityLine),
   ("personal_address", demeurant),
   ("personal_address_line", personalAddressLine),
   ("share_capital", ""),
   ("share_capital_raw", ""),
   ("share_capital_with_currency", ""),
   ("share_capital_line", ""),
   ("share_capital_currency", "€"),
   ("rcs_city", ""),
   ("registration_line", ""),
   ("head_office_address", demeurant),
   ("head_office_line", personalAddressLine),
   ("representative_name", fullName),
   ("representative_role", env.fallbackRole),
   ("representative_role_english", env.fallbackRole),
   ("representative_gender", genre.getD ""),
   ("representative_is_holding", "false"),
   ("representative_line", ""),
   ("representative_pronoun", representativePronoun),
   ("representative_verb", representativeVerb),
   ("holding_representative_name", ""),
   ("holding_representative_role", ""),
   ("holding_representative_gender", ""),
   ("holding_representative_pronoun", ""),
   ("holding_representative_role_english", ""),
   ("holding_representative_verb", "")]

/-- `buildPersonnePhysiqueMarkdown(data, templateOverride, language)`
(the payload is passed explicitly, matching the caller-guaranteed
non-null assertion in the source). -/
def buildPersonnePhysiqueMarkdown (env : Env) (data : CompanyData) (pp : PersonnePhysique)
    (templateOverride : Option String) (language : Lang) : String :=
  renderTemplate (templateOverride.getD (personnePhysiqueTemplate language))
    (buildPersonnePhysiqueVariables env data pp language)

/-- `buildPersonneMoraleMarkdown(data, templateOverride, language)`:
synchronous version, no recursive resolution. -/
def buildPersonneMoraleMarkdown (env : Env) (data : CompanyData) (pm : PersonneMorale)
    (templateOverride : Option String) (language : Lang) : String :=
  let representative := extractRepresentativeInfo env (pm.composition.getD {})
  renderTemplate (templateOverride.getD (personneMoraleTemplate language))
    (createPersonneMoraleTemplateVariables env data pm representative language)

/-- `buildMarkdown(data, options)`.  `userTemplate` is the value the
ambient `getUserTemplate()` preference lookup would return; the source
consults it through `options?.template ?? getUserTemplate()` (nullish
coalescing, so it is read only when `options.template` is undefined). -/
def buildMarkdown (env : Env) (userTemplate : Option String) (data : CompanyData)
    (optTemplate : Option String) (optLanguage : Option Lang) : String :=
  let templateOverride :=
    match optTemplate with
    | some t => some t
    | none => userTemplate
  let language := optLanguage.getD Lang.fr
  match data.formality.content.personnePhysique with
  | some pp => buildPersonnePhysiqueMarkdown env data pp templateOverride language
  | none =>
    match data.formality.content.personneMorale with
    | some pm => buildPersonneMoraleMarkdown env data pm templateOverride language
    | none => "No information to display."

/-- The recursive-search block of `buildPersonneMoraleMarkdownAsync`:
`if (representative.isHolding && representative.corporateSiren) { try
{ representative = await findPhysicalRepresentative(...) } catch ... }`.
`resolver` is the behaviour of `findPhysicalRepresentative`; a rejected
promise is `Except.error`, and the `catch` keeps the originally
extracted representative. -/
def applyResolver
    (resolver : String → String → String → Option String → Except String RepresentativeInfo)
    (representative : RepresentativeInfo) : RepresentativeInfo :=
  if representative.isHolding then
    match strVal representative.corporateSiren with
    | some sirenToSearch =>
      match resolver representative.name sirenToSearch representative.role
          representative.roleCode with
      | Except.ok r => r
      | Except.error _ => representative
    | none => representative
  else representative

/-- `buildMarkdownAsync` / `buildPersonneMoraleMarkdownAsync` with the
recursive search abstracted as `resolver`.  The result is an `Except` so
that an uncaught rejection would surface as `error`; every branch of the
body is `Except.ok` because the source's `try`/`catch` (see
`applyResolver`) swallows the only fallible step. -/
def buildMarkdownAsyncE (env : Env) (userTemplate : Option String)
    (resolver : String → String → String → Option String → Except String RepresentativeInfo)
    (data : CompanyData) (optTemplate : Option String) (optLanguage : Option Lang) :
    Except String String :=
  let templateOverride :=
    match optTemplate with
    | some t => some t
    | none => userTemplate
  let language := optLanguage.getD Lang.fr
  match data.formality.content.personnePhysique with
  | some pp => Except.ok (buildPersonnePhysiqueMarkdown env data pp templateOverride language)
  | none =>
    match data.formality.content.personneMorale with
    | some pm =>
      let representative := extractRepresentativeInfo env (pm.composition.getD {})
      let representative2 := applyResolver resolver representative
      Except.ok
        (renderTemplate (templateOverride.getD (personneMoraleTemplate language))
          (createPersonneMoraleTemplateVariables env data pm representative2 language))
    | none => Except.ok "No information to display."

/-- The template variable set built before rendering for a given record
and language: the `variables` passed to `renderTemplate` by
`buildPersonnePhysiqueMarkdown` resp. `buildPersonneMoraleMarkdown`
(following `buildMarkdown`'s dispatch); `none` when the record has
neither payload (no rendering happens). -/
def templateVariablesFor (env : Env) (data : CompanyData) (language : Lang) :
    Option (List (String × String)) :=
  match data.formality.content.personnePhysique with
  | some pp => some (buildPersonnePhysiqueVariables env data pp language)
  | none =>
    match data.formality.content.personneMorale with
    | some pm =>
      some (createPersonneMoraleTemplateVariables env data pm
        (extractRepresentativeInfo env (pm.composition.getD {})) language)
    | none => none

/-- The maximum recursion depth of the holding-chain walk (the spec
fixes it as a small constant, e.g. 5). -/
def MAX_SEARCH_DEPTH : Nat := 5

/-- Modelled from the spec: the loop body of `findPhysicalRepresentative`
(`recursive-representative-search.ts`, which is not under `src/`; §4.2
of the specification).  Walks the registry graph through `fetch`,
maintaining a visited-identifier list and a remaining-depth counter; a
visited identifier, exhausted depth, failed fetch, or unusable
composition stops the walk with no tail; a non-holding resolution is the
terminal natural person; a holding with a usable identifier continues
the walk. -/
def resolveChainTail (env : Env) (fetch : String → Option CompanyData) :
    Nat → List String → String → Option PhysicalRep
  | 0, _, _ => none
  | Nat.succ depth, visited, siren =>
    if siren ∈ visited then none
    else
      match fetch siren with
      | none => none
      | some data =>
        match data.formality.content.personneMorale with
        | none => none
        | some pm =>
          match pm.composition with
          | none => none
          | some comp =>
            let rep := extractRepresentativeInfo env comp
            if rep.isHolding then
              match strVal rep.corporateSiren with
              | some nextSiren => resolveChainTail env fetch depth (siren :: visited) nextSiren
              | none => none
            else
              some ⟨rep.name, rep.role, rep.roleCode, rep.roleEnglish, rep.gender⟩

/-- Modelled from the spec: the number of registry fetches the walk
performs, mirroring `resolveChainTail` step for step. -/
def resolveChainSteps (env : Env) (fetch : String → Option CompanyData) :
    Nat → List String → String → Nat
  | 0, _, _ => 0
  | Nat.succ depth, visited, siren =>
    if siren ∈ visited then 0
    else
      match fetch siren with
      | none => 1
      | some data =>
        match data.formality.content.personneMorale with
        | none => 1
        | some pm =>
          match pm.composition with
          | none => 1
          | some comp =>
            let rep := extractRepresentativeInfo env comp
            if rep.isHolding then
              match strVal rep.corporateSiren with
              | some nextSiren =>
                1 + resolveChainSteps env fetch depth (siren :: visited) nextSiren
              | none => 1
            else 1

/-- Modelled from the spec: `findPhysicalRepresentative(holdingName,
holdingSiren, holdingRole, holdingRoleCode)` — the final output always
keeps the original, top-level holding's name and role, with the walk's
terminal natural person (if any) attached as the holding-chain tail. -/
def findPhysicalRepresentative (env : Env) (fetch : String → Option CompanyData)
    (holdingName holdingSiren holdingRole : String) (holdingRoleCode : Option String) :
    RepresentativeInfo :=
  { name := holdingName
    role := holdingRole
    roleCode := holdingRoleCode
    roleEnglish := some (env.getRoleNameEnglishByCode (holdingRoleCode.getD ""))
    gender := none
    isHolding := true
    corporateSiren := some holdingSiren
    holdingRepresentative := resolveChainTail env fetch MAX_SEARCH_DEPTH [] holdingSiren }

/-- A concrete environment used to instantiate the universally
quantified theorems on sample data (simple total stand-ins for the
external collaborators). -/
def env0 : Env :=
  { formatRepresentativeName := fun prenoms nom => String.intercalate " " prenoms ++ " " ++ nom
    getRoleName := fun code => "role:" ++ code
    getRoleNameEnglish := fun role => "en:" ++ role
    getRoleNameEnglishByCode := fun code => "enCode:" ++ code
    getLegalFormLabel := fun code => "legal:" ++ code
    getLegalFormLabelEnglish := fun label => "enLegal:" ++ label
    formatSiren := fun s => s
    formatSirenEnglish := fun s => s
    formatFrenchNumber := fun s => s
    formatEnglishNumber := fun s => s
    formatFieldStr := fun v fb => (v.getD fb)
    formatFieldNat := fun v fb => match v with | some n => toString n | none => fb
    formatAddress := fun _ => "ADDR"
    formatCityName := fun c => c
    findGreffeByCodePostal := fun _ => none
    getGenderAgreement := fun g _ => if g = some "F" then "habilitée" else "habilité"
    getRepresentativePronoun := fun g => if g = some "2" then "she" else "he"
    getEnglishAuthorizationPhrase := fun g => (if g = some "F" then "she" else "he", "is")
    corporateAuthorizationPhrase := ("it", "is")
    extractSirenFromEnterprise := fun e => e.sirenField
    fallbackName := "[REPRESENTANT]"
    fallbackRole := "[ROLE]"
    missingData := "[MISSING]"
    fallbackBirthDate := "[DATE]"
    fallbackBirthPlace := "[LIEU]"
    fallbackNationality := "[NATIONALITE]"
    fallbackAddress := "[ADRESSE]"
    fallbackRcsCity := "[VILLE]" }

/-- The minimum comparator rank occurring in a list of pouvoirs (6 — one
past every possible rank — for the empty list). -/
def minRank : List Pouvoir → Nat
  | [] => 6
  | p :: l => min (rankOf p) (minRank l)

/-- Sample pouvoir: a president-coded (5132) natural person, new API
format. -/
def presidentPouvoir : Pouvoir :=
  { roleEntreprise := some "5132"
    individu := some { nom := some "President", prenoms := some ["Paul"], genre := some "1" } }

/-- Sample pouvoir: a manager-coded (51) natural person, new API
format. -/
def managerPouvoir : Pouvoir :=
  { roleEntreprise := some "51"
    individu := some { nom := some "Directeur", prenoms := some ["Jean"], genre := some "1" } }

/-- Sample pouvoir: a liquidator-coded (53) natural person, new API
format. -/
def liquidatorPouvoir : Pouvoir :=
  { roleEntreprise := some "53"
    individu := some { nom := some "Liquidateur", prenoms := some ["Luc"], genre := some "1" } }

/-- Sample pouvoir: old API format (`personnePhysique` descriptor) with
no gender marker. -/
def oldFormatPouvoir : Pouvoir :=
  { roleEntreprise := some "51"
    personnePhysique := some { nom := some "Durand", prenoms := some ["Alice"] } }

/-- Sample pouvoir: new API format (`individu` descriptor) with gender
marker "2". -/
def newFormatPouvoir : Pouvoir :=
  { roleEntreprise := some "51"
    individu := some { nom := some "Martin", prenoms := some ["Marie"], genre := some "2" } }

/-- A composition whose single office-holder is a corporate holding
pointing at `nextSiren`. -/
def cycComposition (nextName nextSiren : String) : CompositionData :=
  ⟨some (PouvoirsVal.arr
    [{ roleEntreprise := some "5132",
       entreprise := some { denomination := some nextName, sirenField := some nextSiren } }])⟩

/-- A company record whose representative is the holding `nextName`
with identifier `nextSiren`. -/
def cycCompany (nextName nextSiren : String) : CompanyData :=
  { formality :=
      { content :=
          { personneMorale := some { composition := some (cycComposition nextName nextSiren) } } } }

/-- The two-node cyclic registry A→B→A from the specification's
cycle-safety requirement. -/
def cycFetch (s : String) : Option CompanyData :=
  if s = "A" then some (cycCompany "Holding B" "B")
  else if s = "B" then some (cycCompany "Holding A" "A")
  else none

/-- Sample corporate payload whose composition holds a president. -/
def corpPM0 : PersonneMorale :=
  { denomination := some "Demo Corp"
    composition := some ⟨some (PouvoirsVal.arr [presidentPouvoir])⟩ }

/-- Sample corporate company record. -/
def corpData0 : CompanyData :=
  { formality := { siren := "123456789", content := { personneMorale := some corpPM0 } } }

/-- A resolver whose promise always rejects. -/
def failingResolver :
    String → String → String → Option String → Except String RepresentativeInfo :=
  fun _ _ _ _ => Except.error "network"

/-- The key list of the corporate template-variable record, in source
order. -/
def personneMoraleVariableKeys : List String :=
  ["company_type", "company_name", "company_header", "company_details", "siren",
   "siren_formatted", "legal_form", "legal_form_english", "share_capital",
   "share_capital_raw", "share_capital_with_currency", "share_capital_line",
   "share_capital_currency", "rcs_city", "registration_line", "head_office_address",
   "head_office_line", "representative_name", "representative_role",
   "representative_role_english", "representative_gender", "representative_is_holding",
   "representative_line", "representative_pronoun", "representative_verb",
   "holding_representative_name", "holding_representative_role",
   "holding_representative_gender", "holding_representative_pronoun",
   "holding_representative_verb", "holding_representative_role_english", "civility",
   "first_name", "last_name", "full_name", "birth_date", "birth_place",
   "birth_statement", "ne_word", "nationality", "nationality_line", "personal_address",
   "personal_address_line"]

/-- The key list of the individual-entrepreneur template-variable
record, in source order. -/
def personnePhysiqueVariableKeys : List String :=
  ["company_type", "company_name", "company_header", "company_details", "siren",
   "siren_formatted", "legal_form", "legal_form_english", "civility", "first_name",
   "last_name", "full_name", "birth_date", "birth_place", "birth_statement", "ne_word",
   "nationality", "nationality_line", "personal_address", "personal_address_line",
   "share_capital", "share_capital_raw", "share_capital_with_currency",
   "share_capital_line", "share_capital_currency", "rcs_city", "registration_line",
   "head_office_address", "head_office_line", "representative_name",
   "representative_role", "representative_role_english", "representative_gender",
   "representative_is_holding", "representative_line", "representative_pronoun",
   "representative_verb", "holding_representative_name", "holding_representative_role",
   "holding_representative_gender", "holding_representative_pronoun",
   "holding_representative_role_english", "holding_representative_verb"]

/-- Every comparator rank is at most 5. -/
theorem rank_le_five (p : Pouvoir) : rankOf p ≤ 5 := by
  unfold rankOf
  rcases p.roleEntreprise with _ | s
  · exact Nat.le_refl 5
  · simp only
    split_ifs <;> omega

/-- The head of the stable sort is the first element of the input that
attains the minimum comparator rank. -/
theorem sortedHead (l : List Pouvoir) :
    (List.insertionSort rLe l).head? = l.find? (fun p => rankOf p == minRank l) := by
  induction l with
  | nil => rfl
  | cons x xs ih =>
    cases hs : List.insertionSort rLe xs with
    | nil =>
      have hxs : xs = [] := by
        have hlen := List.length_insertionSort rLe xs
        rw [hs] at hlen
        exact List.length_eq_zero.mp hlen.symm
      subst hxs
      have h6 : min (rankOf x) 6 = rankOf x :=
        Nat.min_eq_left (Nat.le_trans (rank_le_five x) (by omega))
      simp [List.insertionSort, List.orderedInsert, minRank, List.find?, h6]
    | cons h t =>
      have hfind : xs.find? (fun p => rankOf p == minRank xs) = some h := by
        rw [← ih, hs]; rfl
      have hrank_h : rankOf h = minRank xs := by
        have := List.find?_some hfind
        simpa using this
      by_cases hle : rankOf x ≤ rankOf h
      · have hmin : minRank (x :: xs) = rankOf x := by
          simp only [minRank]
          omega
        rw [List.insertionSort, hs]
        simp only [List.orderedInsert]
        rw [if_pos (show rLe x h from hle)]
        rw [List.find?_cons_of_pos _ (by simp [hmin])]
        rfl
      · have hmin : minRank (x :: xs) = minRank xs := by
          simp only [minRank]
          omega
        rw [List.insertionSort, hs]
        simp only [List.orderedInsert]
        rw [if_neg (show ¬ rLe x h from hle)]
        rw [List.find?_cons_of_neg _ (by simp [hmin]; omega)]
        rw [hmin, hfind]
        rfl

/-- The minimum rank of a list bounds the rank of each member. -/
theorem minRank_le_of_mem {q : Pouvoir} :
    ∀ {l : List Pouvoir}, q ∈ l → minRank l ≤ rankOf q := by
  intro l
  induction l with
  | nil => intro h; cases h
  | cons a as ih =>
    intro h
    rcases List.mem_cons.mp h with h1 | h2
    · subst h1; simp only [minRank]; omega
    · have := ih h2; simp only [minRank]; omega

/-- Whitespace characters are not placeholder-name characters. -/
theorem not_nameChar_of_wsChar {c : Char} (h : isWsChar c = true) : isNameChar c = false := by
  unfold isWsChar at h
  simp [Char.isWhitespace] at h
  rcases h with ((rfl | rfl) | rfl) | rfl <;> decide

/-- `takeWhile` runs through a prefix that satisfies the predicate. -/
theorem takeWhile_app_of_all {p : Char → Bool} {a : List Char} (b : List Char)
    (ha : ∀ c ∈ a, p c = true) : (a ++ b).takeWhile p = a ++ b.takeWhile p := by
  induction a with
  | nil => rfl
  | cons x a' ih =>
    rw [List.cons_append, List.takeWhile_cons, ha x (by simp)]
    simp [ih (fun c hc => ha c (by simp [hc]))]

/-- `takeWhile` stops immediately on a failing head. -/
theorem takeWhile_nil_of_head_false {p : Char → Bool} {b : List Char}
    (hb : ∀ x, b.head? = some x → p x = false) : b.takeWhile p = [] := by
  cases b with
  | nil => rfl
  | cons x b' => simp [List.takeWhile_cons, hb x rfl]

/-- A positive skip counter consumes exactly the prefix of that
length. -/
theorem renderAux_skip (vars : List (String × String)) (a rest : List Char) :
    renderAux vars a.length (a ++ rest) = renderAux vars 0 rest := by
  induction a with
  | nil => rfl
  | cons x a' ih => simpa [renderAux] using ih

/-- The placeholder regex cannot match unless the head character is a
left brace. -/
theorem phAt_none_of_head_ne {c : Char} (cs : List Char) (h : c ≠ '{') :
    phAt (c :: cs) = none := by
  unfold phAt
  rw [if_neg]
  intro hc
  cases cs with
  | nil => simp [List.take] at hc
  | cons d cs' =>
    simp [List.take] at hc
    exact h hc.1

/-- The scan copies a non-brace head character verbatim. -/
theorem renderAux_cons_of_ne (vars : List (String × String)) {c : Char} (cs : List Char)
    (h : c ≠ '{') : renderAux vars 0 (c :: cs) = c :: renderAux vars 0 cs := by
  simp [renderAux, phAt_none_of_head_ne cs h]

/-- The regex matches a well-formed placeholder at the head of the
input, capturing its name and consuming the whole token. -/
theorem phAt_match (ws1 nm ws2 post : List Char)
    (hws1 : ∀ c ∈ ws1, isWsChar c = true) (hws2 : ∀ c ∈ ws2, isWsChar c = true)
    (hnm : nm ≠ []) (hname : ∀ c ∈ nm, isNameChar c = true) :
    phAt ('{' :: '{' :: (ws1 ++ (nm ++ (ws2 ++ '}' :: '}' :: post)))) =
      some (⟨nm⟩, 2 + ws1.length + nm.length + ws2.length + 2) := by
  have hnotws : ∀ c ∈ nm, isWsChar c = false := by
    intro c hc
    cases hw : isWsChar c
    · rfl
    · exact absurd (hname c hc) (by simp [not_nameChar_of_wsChar hw])
  have htw1 : (ws1 ++ (nm ++ (ws2 ++ '}' :: '}' :: post))).takeWhile isWsChar = ws1 := by
    rw [takeWhile_app_of_all _ hws1]
    rw [takeWhile_nil_of_head_false (b := nm ++ (ws2 ++ '}' :: '}' :: post))]
    · simp
    · intro x hx
      cases nm with
      | nil => exact absurd rfl hnm
      | cons y nm' =>
        simp at hx
        subst hx
        exact hnotws _ (by simp)
  have htwn : (nm ++ (ws2 ++ '}' :: '}' :: post)).takeWhile isNameChar = nm := by
    rw [takeWhile_app_of_all _ hname]
    rw [takeWhile_nil_of_head_false (b := ws2 ++ '}' :: '}' :: post)]
    · simp
    · intro x hx
      cases ws2 with
      | nil =>
        simp at hx
        subst hx
        decide
      | cons w ws2' =>
        simp at hx
        subst hx
        exact not_nameChar_of_wsChar (hws2 w (by simp))
  have htw2 : (ws2 ++ '}' :: '}' :: post).takeWhile isWsChar = ws2 := by
    rw [takeWhile_app_of_all _ hws2]
    rw [takeWhile_nil_of_head_false (b := '}' :: '}' :: post)]
    · simp
    · intro x hx
      simp at hx
      subst hx
      decide
  unfold phAt
  rw [if_pos (by simp [List.take])]
  simp only [List.drop_succ_cons, List.drop_zero, htw1, List.drop_left, htwn, htw2]
  rw [if_neg (by simpa using hnm)]
  rw [if_pos (by simp [List.take])]

/-- One scan step across a placeholder at the head of the input:
substitute and resume after the token. -/
theorem renderAux_placeholder (vars : List (String × String)) (ws1 nm ws2 post : List Char)
    (hws1 : ∀ c ∈ ws1, isWsChar c = true) (hws2 : ∀ c ∈ ws2, isWsChar c = true)
    (hnm : nm ≠ []) (hname : ∀ c ∈ nm, isNameChar c = true) :
    renderAux vars 0 ('{' :: '{' :: (ws1 ++ (nm ++ (ws2 ++ '}' :: '}' :: post)))) =
      (lookupValue vars ⟨nm⟩).data ++ renderAux vars 0 post := by
  have hmatch := phAt_match ws1 nm ws2 post hws1 hws2 hnm hname
  rw [show renderAux vars 0 ('{' :: '{' :: (ws1 ++ (nm ++ (ws2 ++ '}' :: '}' :: post)))) =
      (match phAt ('{' :: '{' :: (ws1 ++ (nm ++ (ws2 ++ '}' :: '}' :: post)))) with
       | some (nm', n) =>
         (lookupValue vars nm').data ++
           renderAux vars (n - 1) ('{' :: (ws1 ++ (nm ++ (ws2 ++ '}' :: '}' :: post))))
       | none =>
         '{' :: renderAux vars 0 ('{' :: (ws1 ++ (nm ++ (ws2 ++ '}' :: '}' :: post))))) from
    rfl]
  rw [hmatch]
  have hlist : '{' :: (ws1 ++ (nm ++ (ws2 ++ '}' :: '}' :: post))) =
      ('{' :: (ws1 ++ nm ++ ws2 ++ ['}', '}'])) ++ post := by
    simp [List.append_assoc]
  have hlen : 2 + ws1.length + nm.length + ws2.length + 2 - 1 =
      ('{' :: (ws1 ++ nm ++ ws2 ++ ['}', '}'])).length := by
    simp [List.length_cons, List.length_append]
    omega
  rw [hlist]
  simp only []
  rw [hlen, renderAux_skip]

/-- When every call of the resolver rejects, the `try`/`catch` block
keeps the originally extracted representative. -/
theorem applyResolver_of_error
    (resolver : String → String → String → Option String → Except String RepresentativeInfo)
    (msg : String) (hmsg : ∀ n s r rc, resolver n s r rc = Except.error msg)
    (rep : RepresentativeInfo) : applyResolver resolver rep = rep := by
  unfold applyResolver
  by_cases h : rep.isHolding
  · rw [if_pos h]
    cases hs : strVal rep.corporateSiren with
    | some s => simp [hmsg]
    | none => rfl
  · rw [if_neg h]

/-- The corporate variable record binds exactly the keys of
`personneMoraleVariableKeys`, for every environment, record,
representative and language. -/
theorem morale_keys (env : Env) (data : CompanyData) (pm : PersonneMorale)
    (rep : RepresentativeInfo) (language : Lang) :
    (createPersonneMoraleTemplateVariables env data pm rep language).map Prod.fst =
      personneMoraleVariableKeys := rfl

/-- The individual-entrepreneur variable record binds exactly the keys
of `personnePhysiqueVariableKeys`. -/
theorem physique_keys (env : Env) (data : CompanyData) (pp : PersonnePhysique)
    (language : Lang) :
    (buildPersonnePhysiqueVariables env data pp language).map Prod.fst =
      personnePhysiqueVariableKeys := rfl

/-- A key listed among an association list's keys is found by
`lookupVar`. -/
theorem lookupVar_isSome_of_mem_keys {vars : List (String × String)} {key : String}
    (h : key ∈ vars.map Prod.fst) : (lookupVar vars key).isSome = true := by
  induction vars with
  | nil => simp at h
  | cons kv t ih =>
    by_cases he : kv.1 = key
    · simp [lookupVar, List.find?_cons_of_pos, he]
    · have h2 : key ∈ t.map Prod.fst := by
        rcases List.mem_cons.mp h with h1 | h1
        · exact absurd h1.symm he
        · exact h1
      have := ih h2
      simpa [lookupVar, List.find?_cons_of_neg, he] using this

/-- C1: for every composition whose pouvoirs list contains an entry with
role code "5132" or "73", `extractRepresentativeInfo` selects the first
such entry in the given list order (`List.find?` returns the first
satisfying element) and classifies it as the representative, regardless
of its position and of the other entries' roles. -/
theorem president_selected_first (env : Env) (comp : CompositionData)
    (l : List Pouvoir) (p : Pouvoir)
    (hl : comp.pouvoirs = some (PouvoirsVal.arr l))
    (hp : l.find? isPresident = some p) :
    extractRepresentativeInfo env comp = classifyPouvoir env p := by
  cases l with
  | nil => simp [List.find?] at hp
  | cons a as =>
    simp [extractRepresentativeInfo, extractRepresentativeInfoFull, hl,
      selectedPouvoir, findPresident, hp]

/-- Witness for C1: with a manager listed before the president, the
president entry is still selected. -/
theorem president_selected_first_witness :
    extractRepresentativeInfo env0
        ⟨some (PouvoirsVal.arr [managerPouvoir, presidentPouvoir])⟩ =
      classifyPouvoir env0 presidentPouvoir :=
  president_selected_first env0 ⟨some (PouvoirsVal.arr [managerPouvoir, presidentPouvoir])⟩
    [managerPouvoir, presidentPouvoir] presidentPouvoir rfl (by decide)

/-- C2: for a non-empty pouvoirs list without a president entry, the
selected entry is the first element (in input order) attaining the
minimum index in the priority list `["5132","73","51","30","53"]`
(`rankOf`; codes outside the list rank 5, after every listed code, so
ties among unknown codes fall back to input order). -/
theorem priority_sort_selection (env : Env) (comp : CompositionData) (l : List Pouvoir)
    (hl : comp.pouvoirs = some (PouvoirsVal.arr l)) (hne : l ≠ [])
    (hnp : l.find? isPresident = none) :
    ∃ sel, l.find? (fun p => rankOf p == minRank l) = some sel ∧
      rankOf sel = minRank l ∧
      (∀ q ∈ l, rankOf sel ≤ rankOf q) ∧
      extractRepresentativeInfo env comp = classifyPouvoir env sel := by
  cases l with
  | nil => exact absurd rfl hne
  | cons a as =>
    cases hs : List.insertionSort rLe (a :: as) with
    | nil =>
      have := List.length_insertionSort rLe (a :: as)
      rw [hs] at this
      simp at this
    | cons sel rest =>
      have hfind : (a :: as).find? (fun p => rankOf p == minRank (a :: as)) = some sel := by
        rw [← sortedHead, hs]; rfl
      have hrank : rankOf sel = minRank (a :: as) := by
        simpa using List.find?_some hfind
      refine ⟨sel, hfind, hrank, ?_, ?_⟩
      · intro q hq
        rw [hrank]
        exact minRank_le_of_mem hq
      · have hselq : selectedPouvoir (a :: as) = some sel := by
          unfold selectedPouvoir findPresident
          rw [hnp, hs]
          rfl
        simp [extractRepresentativeInfo, extractRepresentativeInfoFull, hl, hselq]

/-- Witness for C2: with a liquidator (53) listed before a manager (51)
and no president, the manager is selected. -/
theorem priority_sort_selection_witness :
    ∃ sel,
      List.find? (fun p => rankOf p == minRank [liquidatorPouvoir, managerPouvoir])
          [liquidatorPouvoir, managerPouvoir] = some sel ∧
      rankOf sel = minRank [liquidatorPouvoir, managerPouvoir] ∧
      (∀ q ∈ [liquidatorPouvoir, managerPouvoir], rankOf sel ≤ rankOf q) ∧
      extractRepresentativeInfo env0
          ⟨some (PouvoirsVal.arr [liquidatorPouvoir, managerPouvoir])⟩ =
        classifyPouvoir env0 sel :=
  priority_sort_selection env0 ⟨some (PouvoirsVal.arr [liquidatorPouvoir, managerPouvoir])⟩
    [liquidatorPouvoir, managerPouvoir] rfl (by decide) (by decide)

/-- C3 (spec-modelled): the holding-chain walk performs at most `depth`
registry fetches for every environment, registry graph and starting
point, and on the two-node cycle A→B→A it returns the original
holding-only representative with no tail — it neither loops forever nor
throws (the walk is a total function by construction). -/
theorem recursive_resolution_bounded_and_cycle_safe :
    (∀ (env : Env) (fetch : String → Option CompanyData) (depth : Nat)
        (visited : List String) (siren : String),
        resolveChainSteps env fetch depth visited siren ≤ depth) ∧
    findPhysicalRepresentative env0 cycFetch "Holding A" "A" "Président" (some "73") =
      { name := "Holding A", role := "Président", roleCode := some "73",
        roleEnglish := some "enCode:73", gender := none, isHolding := true,
        corporateSiren := some "A", holdingRepresentative := none } := by
  constructor
  · intro env fetch depth
    induction depth with
    | zero => intro visited siren; exact Nat.le_refl 0
    | succ d ih =>
      intro visited siren
      unfold resolveChainSteps
      split
      · exact Nat.zero_le _
      · split
        · omega
        · split
          · omega
          · split
            · omega
            · dsimp only
              split
              · split
                · rename_i nextSiren _
                  have := ih (siren :: visited) nextSiren
                  omega
                · omega
              · omega
  · decide

/-- C4: the async corporate builder never rejects: its result is `ok`
for every resolver behaviour, and when the resolver's promise rejects,
the error is swallowed and the rendering is exactly the synchronous one
computed from the originally extracted representative. -/
theorem buildMarkdownAsync_swallows_resolver_errors (env : Env) (u : Option String)
    (resolver : String → String → String → Option String → Except String RepresentativeInfo)
    (data : CompanyData) (optT : Option String) (optL : Option Lang) :
    (buildMarkdownAsyncE env u resolver data optT optL).isOk = true ∧
    (∀ msg, (∀ n s r rc, resolver n s r rc = Except.error msg) →
        buildMarkdownAsyncE env u resolver data optT optL =
          Except.ok (buildMarkdown env u data optT optL)) := by
  constructor
  · unfold buildMarkdownAsyncE
    cases hpp : data.formality.content.personnePhysique
    · cases hpm : data.formality.content.personneMorale <;> rfl
    · rfl
  · intro msg hmsg
    unfold buildMarkdownAsyncE buildMarkdown
    cases hpp : data.formality.content.personnePhysique
    · cases hpm : data.formality.content.personneMorale
      · rfl
      · simp only [applyResolver_of_error resolver msg hmsg]
        rfl
    · rfl

/-- Witness for C4: a corporate record with an always-rejecting
resolver still renders, with the synchronous result. -/
theorem buildMarkdownAsync_swallows_resolver_errors_witness :
    (buildMarkdownAsyncE env0 none failingResolver corpData0 none none).isOk = true ∧
      buildMarkdownAsyncE env0 none failingResolver corpData0 none none =
        Except.ok (buildMarkdown env0 none corpData0 none none) :=
  ⟨(buildMarkdownAsync_swallows_resolver_errors env0 none failingResolver
      corpData0 none none).1,
   (buildMarkdownAsync_swallows_resolver_errors env0 none failingResolver
      corpData0 none none).2 "network" (fun _ _ _ _ => rfl)⟩

/-- Counterexample to C5 as stated: in the old-format
(`personnePhysique`) branch a missing gender marker resolves to "M",
not to null — the claim's "null for every other or missing marker value
in both branches" fails on the old-format branch. -/
theorem old_format_gender_counterexample :
    oldFormatPouvoir.personnePhysique.bind (·.genre) = none ∧
      (extractRepresentativeInfo env0 ⟨some (PouvoirsVal.arr [oldFormatPouvoir])⟩).gender
        = some "M" := by decide

/-- C5 (amended): gender mapping of the selected office-holder per
branch — new-format `individu`: "2"→F, "1"→M, anything else (including
missing) → null; old-format `personnePhysique`: "2"→F, anything else
(including missing) → M. -/
theorem gender_mapping_by_branch (env : Env) (comp : CompositionData) (l : List Pouvoir)
    (q : Pouvoir) (hl : comp.pouvoirs = some (PouvoirsVal.arr l))
    (hsel : selectedPouvoir l = some q) :
    (∀ d, q.individu = some d →
        (extractRepresentativeInfo env comp).gender =
          (if d.genre = some "2" then some "F"
           else if d.genre = some "1" then some "M" else none)) ∧
    (∀ d, q.individu = none → q.personnePhysique = some d →
        (extractRepresentativeInfo env comp).gender =
          (if d.genre = some "2" then some "F" else some "M")) := by
  cases l with
  | nil => simp [selectedPouvoir, findPresident, List.find?, List.insertionSort] at hsel
  | cons a as =>
    have hext : extractRepresentativeInfo env comp = classifyPouvoir env q := by
      simp [extractRepresentativeInfo, extractRepresentativeInfoFull, hl, hsel]
    constructor
    · intro d hd
      rw [hext]
      simp [classifyPouvoir, hd]
    · intro d hi hd
      rw [hext]
      simp [classifyPouvoir, hi, hd]

/-- Witness for C5 (amended): a new-format descriptor with marker "2"
resolves to gender "F". -/
theorem gender_mapping_by_branch_witness :
    (∀ d, newFormatPouvoir.individu = some d →
        (extractRepresentativeInfo env0 ⟨some (PouvoirsVal.arr [newFormatPouvoir])⟩).gender =
          (if d.genre = some "2" then some "F"
           else if d.genre = some "1" then some "M" else none)) ∧
    (∀ d, newFormatPouvoir.individu = none → newFormatPouvoir.personnePhysique = some d →
        (extractRepresentativeInfo env0 ⟨some (PouvoirsVal.arr [newFormatPouvoir])⟩).gender =
          (if d.genre = some "2" then some "F" else some "M")) :=
  gender_mapping_by_branch env0 ⟨some (PouvoirsVal.arr [newFormatPouvoir])⟩
    [newFormatPouvoir] newFormatPouvoir rfl (by decide)

/-- Counterexample to C6 as stated: rendering is a single left-to-right
pass, so brace characters adjacent to a substituted value can form a new
placeholder token that remains literally in the output — the template
"{{{{a}}}}" with the recognized variable a ↦ "a" renders to "{{a}}",
which is itself a recognized placeholder token (second conjunct). -/
theorem renderTemplate_residual_placeholder_counterexample :
    renderTemplate "{{{{a}}}}" [("a", "a")] = "{{a}}" ∧
      renderTemplate "{{a}}" [("a", "a")] = "a" := by decide

/-- C6 (amended): `renderTemplate` substitutes, in one left-to-right
pass, every placeholder occurrence `{{ name }}` (optional interior
whitespace, name in `[A-Za-z0-9_]+`) by the variable's value — the empty
string when the name is not a key — and never throws (it is a total
function); but the pass does not rescan, so substituted values together
with adjacent brace characters may leave new placeholder tokens in the
output. -/
theorem renderTemplate_single_pass_substitution (vars : List (String × String))
    (pre ws1 nm ws2 post : List Char)
    (hpre : ∀ c ∈ pre, c ≠ '{') (hws1 : ∀ c ∈ ws1, isWsChar c = true)
    (hws2 : ∀ c ∈ ws2, isWsChar c = true) (hnm : nm ≠ [])
    (hname : ∀ c ∈ nm, isNameChar c = true) :
    renderTemplate ⟨pre ++ '{' :: '{' :: (ws1 ++ (nm ++ (ws2 ++ '}' :: '}' :: post)))⟩ vars =
      ⟨pre ++ (lookupValue vars ⟨nm⟩).data ++ (renderTemplate ⟨post⟩ vars).data⟩ := by
  show (⟨renderAux vars 0 (pre ++ '{' :: '{' :: (ws1 ++ (nm ++ (ws2 ++ '}' :: '}' :: post))))⟩ :
      String) = _
  congr 1
  show renderAux vars 0 (pre ++ '{' :: '{' :: (ws1 ++ (nm ++ (ws2 ++ '}' :: '}' :: post)))) =
      pre ++ (lookupValue vars ⟨nm⟩).data ++ renderAux vars 0 post
  induction pre with
  | nil =>
    simpa using renderAux_placeholder vars ws1 nm ws2 post hws1 hws2 hnm hname
  | cons c pre' ih =>
    rw [List.cons_append, renderAux_cons_of_ne vars _ (hpre c (by simp))]
    rw [ih (fun d hd => hpre d (by simp [hd]))]
    simp

/-- Witness for C6 (amended): "x{{ a}}y" with a ↦ "V" renders to
"xVy". -/
theorem renderTemplate_single_pass_substitution_witness :
    renderTemplate ⟨['x'] ++ '{' :: '{' :: ([' '] ++ (['a'] ++ ([] ++ '}' :: '}' :: ['y'])))⟩
        [("a", "V")] =
      ⟨['x'] ++ (lookupValue [("a", "V")] ⟨['a']⟩).data ++
        (renderTemplate ⟨['y']⟩ [("a", "V")]).data⟩ :=
  renderTemplate_single_pass_substitution [("a", "V")] ['x'] [' '] ['a'] [] ['y']
    (by decide) (by decide) (by decide) (by decide) (by decide)

/-- C7: for every record with a payload and every language, the template
variable set built before rendering binds every name advertised in
`AVAILABLE_TEMPLATE_VARIABLES` (all three groups) to a string, and the
fields inapplicable to the record's entity kind (birth fields for a
corporate record, capital/registration fields for an individual one) are
bound to the explicit empty string. -/
theorem template_variables_fully_populated (env : Env) (data : CompanyData) (language : Lang)
    (vs : List (String × String))
    (hvs : templateVariablesFor env data language = some vs) :
    (∀ name ∈ allAdvertisedVariables, (lookupVar vs name).isSome = true) ∧
    (data.formality.content.personnePhysique = none →
      lookupVar vs "birth_date" = some "" ∧ lookupVar vs "birth_place" = some "" ∧
      lookupVar vs "birth_statement" = some "" ∧ lookupVar vs "ne_word" = some "" ∧
      lookupVar vs "nationality" = some "" ∧ lookupVar vs "nationality_line" = some "" ∧
      lookupVar vs "civility" = some "" ∧ lookupVar vs "first_name" = some "" ∧
      lookupVar vs "last_name" = some "") ∧
    (∀ pp, data.formality.content.personnePhysique = some pp →
      lookupVar vs "share_capital" = some "" ∧ lookupVar vs "share_capital_raw" = some "" ∧
      lookupVar vs "share_capital_with_currency" = some "" ∧
      lookupVar vs "share_capital_line" = some "" ∧ lookupVar vs "rcs_city" = some "" ∧
      lookupVar vs "registration_line" = some "" ∧
      lookupVar vs "representative_line" = some "" ∧
      lookupVar vs "holding_representative_name" = some "") := by
  unfold templateVariablesFor at hvs
  cases hpp : data.formality.content.personnePhysique with
  | some pp =>
    rw [hpp] at hvs
    obtain rfl : vs = buildPersonnePhysiqueVariables env data pp language :=
      (Option.some.inj hvs).symm
    refine ⟨?_, ?_, ?_⟩
    · intro name hn
      apply lookupVar_isSome_of_mem_keys
      rw [physique_keys]
      have hsub : ∀ x ∈ allAdvertisedVariables, x ∈ personnePhysiqueVariableKeys := by decide
      exact hsub name hn
    · intro h
      exact absurd h (by simp)
    · intro pp2 hpp2
      exact ⟨rfl, rfl, rfl, rfl, rfl, rfl, rfl, rfl⟩
  | none =>
    rw [hpp] at hvs
    cases hpm : data.formality.content.personneMorale with
    | some pm =>
      rw [hpm] at hvs
      obtain rfl : vs = createPersonneMoraleTemplateVariables env data pm
          (extractRepresentativeInfo env (pm.composition.getD {})) language :=
        (Option.some.inj hvs).symm
      refine ⟨?_, ?_, ?_⟩
      · intro name hn
        apply lookupVar_isSome_of_mem_keys
        rw [morale_keys]
        have hsub : ∀ x ∈ allAdvertisedVariables, x ∈ personneMoraleVariableKeys := by decide
        exact hsub name hn
      · intro _
        exact ⟨rfl, rfl, rfl, rfl, rfl, rfl, rfl, rfl, rfl⟩
      · intro pp2 hpp2
        exact absurd hpp2 (by simp)
    | none =>
      rw [hpm] at hvs
      exact absurd hvs (by simp)

/-- Witness for C7: on the sample corporate record the birth-date
variable is bound to the empty string. -/
theorem template_variables_fully_populated_witness :
    lookupVar
        (createPersonneMoraleTemplateVariables env0 corpData0 corpPM0
          (extractRepresentativeInfo env0 (corpPM0.composition.getD {})) Lang.fr)
        "birth_date" = some "" :=
  ((template_variables_fully_populated env0 corpData0 Lang.fr
      (createPersonneMoraleTemplateVariables env0 corpData0 corpPM0
        (extractRepresentativeInfo env0 (corpPM0.composition.getD {})) Lang.fr)
      rfl).2.1 rfl).1

/-- C8: an absent, non-array or empty `pouvoirs` field makes
`extractRepresentativeInfo` return the fixed fallback representative
(placeholder name and role, not a holding, no gender); the function is
total, so it never throws. -/
theorem empty_composition_fallback (env : Env) (comp : CompositionData)
    (h : comp.pouvoirs = none ∨ comp.pouvoirs = some PouvoirsVal.other ∨
         comp.pouvoirs = some (PouvoirsVal.arr [])) :
    extractRepresentativeInfo env comp = fallbackRep env ∧
      (extractRepresentativeInfo env comp).name = env.fallbackName ∧
      (extractRepresentativeInfo env comp).role = env.fallbackRole ∧
      (extractRepresentativeInfo env comp).isHolding = false ∧
      (extractRepresentativeInfo env comp).gender = none := by
  rcases h with h | h | h <;>
    simp [extractRepresentativeInfo, extractRepresentativeInfoFull, h, fallbackRep]

/-- Witness for C8: a composition without a `pouvoirs` member yields
the fallback representative. -/
theorem empty_composition_fallback_witness :
    extractRepresentativeInfo env0 ⟨none⟩ = fallbackRep env0 ∧
      (extractRepresentativeInfo env0 ⟨none⟩).name = env0.fallbackName ∧
      (extractRepresentativeInfo env0 ⟨none⟩).role = env0.fallbackRole ∧
      (extractRepresentativeInfo env0 ⟨none⟩).isHolding = false ∧
      (extractRepresentativeInfo env0 ⟨none⟩).gender = none :=
  empty_composition_fallback env0 ⟨none⟩ (Or.inl rfl)

/-- Counterexample to C9 as stated: `Array.prototype.sort` mutates the
pouvoirs array in place, so in the no-president branch the composition
is reordered by the call — with a liquidator (53) listed before a
manager (51), the array afterwards holds them in the opposite order. -/
theorem extract_mutates_pouvoirs_counterexample :
    (extractRepresentativeInfoFull env0
        ⟨some (PouvoirsVal.arr [liquidatorPouvoir, managerPouvoir])⟩).2 =
      ⟨some (PouvoirsVal.arr [managerPouvoir, liquidatorPouvoir])⟩ ∧
    (extractRepresentativeInfoFull env0
        ⟨some (PouvoirsVal.arr [liquidatorPouvoir, managerPouvoir])⟩).2 ≠
      ⟨some (PouvoirsVal.arr [liquidatorPouvoir, managerPouvoir])⟩ := by decide

/-- C9 (amended): `extractRepresentativeInfo` is selection logic with no
network or recursive calls (it is a pure function of the composition and
the lookup environment), and the pouvoirs array afterwards holds the
same entries up to a permutation (the in-place sort of the no-president
branch); when the list is absent/invalid or a president entry is
present, the array is left exactly unchanged. -/
theorem extract_pure_selection_up_to_permutation (env : Env) (comp : CompositionData) :
    (∀ l, comp.pouvoirs = some (PouvoirsVal.arr l) →
        ∃ l2, (extractRepresentativeInfoFull env comp).2 = ⟨some (PouvoirsVal.arr l2)⟩ ∧
          List.Perm l2 l) ∧
    (comp.pouvoirs = none ∨ comp.pouvoirs = some PouvoirsVal.other →
        (extractRepresentativeInfoFull env comp).2 = comp) ∧
    (∀ l p, comp.pouvoirs = some (PouvoirsVal.arr l) → l.find? isPresident = some p →
        (extractRepresentativeInfoFull env comp).2 = comp) := by
  obtain ⟨pv⟩ := comp
  refine ⟨?_, ?_, ?_⟩
  · intro l hl
    simp only at hl
    subst hl
    cases l with
    | nil => exact ⟨[], rfl, List.Perm.refl []⟩
    | cons a as =>
      refine ⟨sortedState (a :: as), rfl, ?_⟩
      unfold sortedState findPresident
      cases h : List.find? isPresident (a :: as) with
      | some p => exact List.Perm.refl _
      | none => exact List.perm_insertionSort rLe (a :: as)
  · rintro (h | h) <;> simp only at h <;> subst h <;> rfl
  · intro l p hl hp
    simp only at hl
    subst hl
    cases l with
    | nil => simp [List.find?] at hp
    | cons a as =>
      show (⟨some (PouvoirsVal.arr (sortedState (a :: as)))⟩ : CompositionData) = _
      unfold sortedState findPresident
      rw [hp]

/-- Witness for C9 (amended): the reordered array of the counterexample
composition is a permutation of the original. -/
theorem extract_pure_selection_up_to_permutation_witness :
    ∃ l2,
      (extractRepresentativeInfoFull env0
          ⟨some (PouvoirsVal.arr [liquidatorPouvoir, managerPouvoir])⟩).2 =
        ⟨some (PouvoirsVal.arr l2)⟩ ∧
      List.Perm l2 [liquidatorPouvoir, managerPouvoir] :=
  (extract_pure_selection_up_to_permutation env0
      ⟨some (PouvoirsVal.arr [liquidatorPouvoir, managerPouvoir])⟩).1
    [liquidatorPouvoir, managerPouvoir] rfl

/-- C10: when `options.template` is supplied, `buildMarkdown` is a
function of (data, template, language) alone — the ambient
user-preference template (the `getUserTemplate()` result, here the
`userTemplate` argument) has no influence on the output, so it is
consulted only when `options.template` is undefined, and any two calls
with equal arguments return identical strings. -/
theorem buildMarkdown_template_override_deterministic (env : Env) (data : CompanyData)
    (t : String) (optLang : Option Lang) (u1 u2 : Option String) :
    buildMarkdown env u1 data (some t) optLang = buildMarkdown env u2 data (some t) optLang :=
  rfl
